import Mathlib

/-!
# Verification of the bookstore manager's sales-record core

A shallow embedding of `src/bookstore_manager.py`. The SQLite database is
modelled as explicit state: three tables (member, book, sale) as lists of
rows plus the autoincrement counter of the `sale` table. Each operation of
the Python module becomes a pure function from a database state (and its
other arguments) to its result together with the successor state.
-/

namespace Bookstore

/-- A row of the `member` table (`mid TEXT PRIMARY KEY, mname, mphone, memail`). -/
structure Member where
  mid : String
  mname : String
  mphone : String
  memail : Option String
deriving DecidableEq, Repr

/-- A row of the `book` table (`bid TEXT PRIMARY KEY, btitle, bprice, bstock`). -/
structure Book where
  bid : String
  btitle : String
  bprice : Int
  bstock : Int
deriving DecidableEq, Repr

/-- A row of the `sale` table
(`sid INTEGER PRIMARY KEY AUTOINCREMENT, sdate, mid, bid, sqty, sdiscount, stotal`). -/
structure Sale where
  sid : Nat
  sdate : String
  mid : String
  bid : String
  sqty : Int
  sdiscount : Int
  stotal : Int
deriving DecidableEq, Repr

/-- The database state: the three tables plus the autoincrement counter that
SQLite keeps for the `sale` table (the next `sid` to be assigned). -/
structure DB where
  members : List Member
  books : List Book
  sales : List Sale
  nextSid : Nat
deriving DecidableEq, Repr

/-- A freshly created database: empty tables, autoincrement counter at 1. -/
def emptyDB : DB := ⟨[], [], [], 1⟩

/-! ## Schema/Bootstrap (`initialize_db`, lines 14-51)

`CREATE TABLE IF NOT EXISTS` is the existence of the tables themselves (always
true of a `DB` value); the seed `INSERT OR IGNORE` statements are inserts
keyed on the primary key that do nothing when the key is already present. -/

/-- Does a member row with primary key `mid` exist? -/
def hasMember (db : DB) (mid : String) : Bool :=
  db.members.any fun m => m.mid == mid

/-- Does a book row with primary key `bid` exist? -/
def hasBook (db : DB) (bid : String) : Bool :=
  db.books.any fun b => b.bid == bid

/-- Does a sale row with primary key `sid` exist? -/
def hasSaleId (db : DB) (sid : Nat) : Bool :=
  db.sales.any fun s => s.sid == sid

/-- `INSERT OR IGNORE INTO member VALUES (...)`. -/
def insMember (db : DB) (m : Member) : DB :=
  if hasMember db m.mid then db else { db with members := db.members ++ [m] }

/-- `INSERT OR IGNORE INTO book VALUES (...)`. -/
def insBook (db : DB) (b : Book) : DB :=
  if hasBook db b.bid then db else { db with books := db.books ++ [b] }

/-- `INSERT OR IGNORE INTO sale (sid, ...) VALUES (...)` with an explicit
`sid`: on an actual insert SQLite also raises the autoincrement counter past
the inserted key. -/
def insSaleSeed (db : DB) (s : Sale) : DB :=
  if hasSaleId db s.sid then db
  else { db with sales := db.sales ++ [s], nextSid := max db.nextSid (s.sid + 1) }

def mAlice : Member := ⟨"M001", "Alice", "0912-345678", some "alice@example.com"⟩
def mBob : Member := ⟨"M002", "Bob", "0923-456789", some "bob@example.com"⟩
def mCathy : Member := ⟨"M003", "Cathy", "0934-567890", some "cathy@example.com"⟩
def bPython : Book := ⟨"B001", "Python Programming", 600, 50⟩
def bData : Book := ⟨"B002", "Data Science Basics", 800, 30⟩
def bML : Book := ⟨"B003", "Machine Learning Guide", 1200, 20⟩
def sSeed1 : Sale := ⟨1, "2024-01-15", "M001", "B001", 2, 100, 1100⟩
def sSeed2 : Sale := ⟨2, "2024-01-16", "M002", "B002", 1, 50, 750⟩
def sSeed3 : Sale := ⟨3, "2024-01-17", "M001", "B003", 3, 200, 3400⟩
def sSeed4 : Sale := ⟨4, "2024-01-18", "M003", "B001", 1, 0, 600⟩

/-- `initialize_db` (lines 14-51): ensure the tables exist and insert the
fixed seed rows with insert-if-absent semantics. -/
def initialize_db (db : DB) : DB :=
  insSaleSeed (insSaleSeed (insSaleSeed (insSaleSeed
    (insBook (insBook (insBook
      (insMember (insMember (insMember db mAlice) mBob) mCathy)
      bPython) bData) bML)
    sSeed1) sSeed2) sSeed3) sSeed4

/-- The seeded database, as produced by `main`'s call to `initialize_db` on a
fresh file. -/
def seedDB : DB := initialize_db emptyDB

/-! ## Sale Validator & Writer (`add_sale`, lines 54-92) -/

/-- The user-facing message for an unknown member or book id (lines 68 and 73:
the same string in both branches). -/
def invalidRefMsg : String := "會員編號或書籍編號無效"

/-- The user-facing message for insufficient stock, carrying the current
stock (line 78). -/
def insufficientStockMsg (stock : Int) : String :=
  "書籍庫存不足 (現有庫存: " ++ toString stock ++ ")"

/-- `add_sale` (lines 54-92): validate the member id, the book id and the
stock, compute `total = bprice * sqty - sdiscount`, then atomically insert
the sale row (with the autoincremented `sid`) and run
`UPDATE book SET bstock = bstock - sqty WHERE bid = ?`. Returns the Python
pair `(成功?, 訊息或總額)` together with the successor state. -/
def add_sale (db : DB) (sdate mid bid : String) (sqty sdiscount : Int) :
    (Bool × String) × DB :=
  match db.members.find? (fun m => m.mid == mid) with
  | none => ((false, invalidRefMsg), db)
  | some _ =>
    match db.books.find? (fun b => b.bid == bid) with
    | none => ((false, invalidRefMsg), db)
    | some bk =>
      if bk.bstock < sqty then ((false, insufficientStockMsg bk.bstock), db)
      else
        let total := bk.bprice * sqty - sdiscount
        ((true, toString total),
         { db with
            sales := db.sales ++ [⟨db.nextSid, sdate, mid, bid, sqty, sdiscount, total⟩],
            books := db.books.map fun b =>
              if b.bid == bid then { b with bstock := b.bstock - sqty } else b,
            nextSid := db.nextSid + 1 })

/-- The boundary check `main` applies to the discount input before calling
`add_sale` (lines 271-280): a discount is accepted only when it is not
negative. -/
def cliDiscountAccepted (d : Int) : Bool := !(d < 0)

/-! ## Report Renderer (`print_sale_report`, lines 95-129) -/

/-- One row of the report query: sale joined with its member and book. -/
structure Row where
  sid : Nat
  sdate : String
  mname : String
  btitle : String
  bprice : Int
  sqty : Int
  sdiscount : Int
  stotal : Int
deriving DecidableEq, Repr

/-- The `JOIN member ... JOIN book ...` of the report query, for one sale:
`none` when the sale's member or book id resolves to no row (an inner join
drops such a sale). -/
def joinRow (db : DB) (s : Sale) : Option Row :=
  match db.members.find? (fun m => m.mid == s.mid) with
  | none => none
  | some m =>
    match db.books.find? (fun b => b.bid == s.bid) with
    | none => none
    | some b => some ⟨s.sid, s.sdate, m.mname, b.btitle, b.bprice, s.sqty, s.sdiscount, s.stotal⟩

/-- Insert a row into a list sorted by ascending `sid`. -/
def insertRow (r : Row) : List Row → List Row
  | [] => [r]
  | x :: xs => if r.sid ≤ x.sid then r :: x :: xs else x :: insertRow r xs

/-- Sort rows by ascending `sid` (the query's `ORDER BY sale.sid`). -/
def sortRows : List Row → List Row
  | [] => []
  | x :: xs => insertRow x (sortRows xs)

/-- The result set of the report query: the join, ordered by `sid`. -/
def reportRows (db : DB) : List Row :=
  sortRows (db.sales.filterMap (joinRow db))

/-- Insert thousands separators into a reversed digit list (`k` digits have
already been emitted). -/
def commaRev : List Char → Nat → List Char
  | [], _ => []
  | c :: cs, k =>
    if k ≠ 0 ∧ k % 3 = 0 then ',' :: c :: commaRev cs (k + 1)
    else c :: commaRev cs (k + 1)

/-- A natural number with thousands separators. -/
def natComma (n : Nat) : String :=
  String.mk ((commaRev (toString n).toList.reverse 0).reverse)

/-- Python's `f"\x7bx:,\x7d"` on an integer: thousands separators, a leading
minus sign for negatives. -/
def intComma (i : Int) : String :=
  if i < 0 then "-" ++ natComma i.natAbs else natComma i.natAbs

/-- A run of `n` copies of the character `c` (the separator rules of the
report are written as literal runs in the Python source). -/
def charRun (c : Char) (n : Nat) : String := String.mk (List.replicate n c)

/-- The 50-dash separator of a report block. -/
def dashRule : String := charRun '-' 50

/-- The notice printed when the report query returns no row (line 110). -/
def noRecordsMsg : String := "沒有銷售記錄\n"

/-- The report banner (line 112): 20 equals signs on each side of the title. -/
def reportHeader : String := charRun '=' 20 ++ " 銷售報表 " ++ charRun '=' 20 ++ "\n"

/-- One report block (lines 114-129); `idx` is the 1-based position in the
listing, not the sale id. -/
def renderBlock (idx : Nat) (r : Row) : String :=
  "銷售 #" ++ toString idx ++ "\n" ++
  "銷售編號: " ++ toString r.sid ++ "\n" ++
  "銷售日期: " ++ r.sdate ++ "\n" ++
  "會員姓名: " ++ r.mname ++ "\n" ++
  "書籍標題: " ++ r.btitle ++ "\n" ++
  dashRule ++ "\n" ++
  "單價\t數量\t折扣\t小計\n" ++
  dashRule ++ "\n" ++
  toString r.bprice ++ "\t" ++ toString r.sqty ++ "\t" ++ toString r.sdiscount ++
    "\t" ++ intComma r.stotal ++ "\n" ++
  dashRule ++ "\n" ++
  "銷售總額: " ++ intComma r.stotal ++ "\n" ++
  charRun '=' 50 ++ "\n\n"

/-- Render the blocks, numbering them from `idx`. -/
def renderBlocks (idx : Nat) : List Row → String
  | [] => ""
  | r :: rs => renderBlock idx r ++ renderBlocks (idx + 1) rs

/-- `print_sale_report` (lines 95-129): run the join query ordered by `sid`
and render either the no-records notice or one block per result row. The
function only executes `SELECT`, so the state it passes on is the input
state. -/
def print_sale_report (db : DB) : String × DB :=
  match reportRows db with
  | [] => (noRecordsMsg, db)
  | r :: rs => (reportHeader ++ renderBlocks 1 (r :: rs), db)

/-! ## Sale Mutator (`update_sale`, phase B: lines 164-190)

Phase A is the interactive listing and selection loop; it performs only
`SELECT` and `input`. Phase B receives the selected `sid` and the validated
new discount (the input loop at lines 171-180 re-prompts until the discount
is a non-negative integer), re-fetches the sale's unit price and quantity
through the sale-book join, and runs
`UPDATE sale SET sdiscount = ?, stotal = ? WHERE sid = ?`.
When the re-fetch returns no row the Python code raises a `TypeError` before
any write (`row2` is `None` at line 169): modelled as `none`. -/

def update_sale_apply (db : DB) (sid : Nat) (disc : Int) : Option DB :=
  match db.sales.find? (fun s => s.sid == sid) with
  | none => none
  | some s =>
    match db.books.find? (fun b => b.bid == s.bid) with
    | none => none
    | some bk =>
      some { db with
              sales := db.sales.map fun t =>
                if t.sid == sid then
                  { t with sdiscount := disc, stotal := bk.bprice * s.sqty - disc }
                else t }

/-! ## Sale Remover (`delete_sale`, phase B: lines 225-230) -/

/-- Phase B of `delete_sale`: `DELETE FROM sale WHERE sid = ?` for the
selected `sid`. -/
def delete_sale_apply (db : DB) (sid : Nat) : DB :=
  { db with sales := db.sales.filter fun s => !(s.sid == sid) }

/-! ## Reachable states

States reachable from the seeded database by the mutating operations, with
the caller precondition `quantity > 0` that `main` enforces on `add_sale`
(lines 261-268). -/

inductive Reach : DB → Prop
  | seed : Reach seedDB
  | sale (db : DB) (h : Reach db) (sdate mid bid : String) (q d : Int)
      (hq : 0 < q) : Reach (add_sale db sdate mid bid q d).2
  | upd (db : DB) (h : Reach db) (sid : Nat) (d : Int) (db' : DB)
      (hdb : update_sale_apply db sid d = some db') : Reach db'
  | del (db : DB) (h : Reach db) (sid : Nat) : Reach (delete_sale_apply db sid)

/-! ## Helper lemmas: bootstrap -/

@[simp]
theorem insBook_members (db : DB) (b : Book) : (insBook db b).members = db.members := by
  unfold insBook; split <;> rfl

@[simp]
theorem insSaleSeed_members (db : DB) (s : Sale) : (insSaleSeed db s).members = db.members := by
  unfold insSaleSeed; split <;> rfl

@[simp]
theorem insMember_books (db : DB) (m : Member) : (insMember db m).books = db.books := by
  unfold insMember; split <;> rfl

@[simp]
theorem insSaleSeed_books (db : DB) (s : Sale) : (insSaleSeed db s).books = db.books := by
  unfold insSaleSeed; split <;> rfl

@[simp]
theorem insMember_sales (db : DB) (m : Member) : (insMember db m).sales = db.sales := by
  unfold insMember; split <;> rfl

@[simp]
theorem insBook_sales (db : DB) (b : Book) : (insBook db b).sales = db.sales := by
  unfold insBook; split <;> rfl

@[simp]
theorem hasMember_insBook (db : DB) (b : Book) (k : String) :
    hasMember (insBook db b) k = hasMember db k := by
  simp [hasMember]

@[simp]
theorem hasMember_insSaleSeed (db : DB) (s : Sale) (k : String) :
    hasMember (insSaleSeed db s) k = hasMember db k := by
  simp [hasMember]

@[simp]
theorem hasBook_insMember (db : DB) (m : Member) (k : String) :
    hasBook (insMember db m) k = hasBook db k := by
  simp [hasBook]

@[simp]
theorem hasBook_insSaleSeed (db : DB) (s : Sale) (k : String) :
    hasBook (insSaleSeed db s) k = hasBook db k := by
  simp [hasBook]

@[simp]
theorem hasSaleId_insMember (db : DB) (m : Member) (k : Nat) :
    hasSaleId (insMember db m) k = hasSaleId db k := by
  simp [hasSaleId]

@[simp]
theorem hasSaleId_insBook (db : DB) (b : Book) (k : Nat) :
    hasSaleId (insBook db b) k = hasSaleId db k := by
  simp [hasSaleId]

theorem hasMember_insMember_self (db : DB) (m : Member) :
    hasMember (insMember db m) m.mid = true := by
  unfold insMember
  split
  · assumption
  · simp [hasMember]

theorem hasMember_insMember_mono (db : DB) (m : Member) (k : String)
    (h : hasMember db k = true) : hasMember (insMember db m) k = true := by
  unfold insMember
  split
  · exact h
  · simp only [hasMember] at h ⊢
    simp [List.any_append, h]

theorem hasBook_insBook_self (db : DB) (b : Book) :
    hasBook (insBook db b) b.bid = true := by
  unfold insBook
  split
  · assumption
  · simp [hasBook]

theorem hasBook_insBook_mono (db : DB) (b : Book) (k : String)
    (h : hasBook db k = true) : hasBook (insBook db b) k = true := by
  unfold insBook
  split
  · exact h
  · simp only [hasBook] at h ⊢
    simp [List.any_append, h]

theorem hasSaleId_insSaleSeed_self (db : DB) (s : Sale) :
    hasSaleId (insSaleSeed db s) s.sid = true := by
  unfold insSaleSeed
  split
  · assumption
  · simp [hasSaleId]

theorem hasSaleId_insSaleSeed_mono (db : DB) (s : Sale) (k : Nat)
    (h : hasSaleId db k = true) : hasSaleId (insSaleSeed db s) k = true := by
  unfold insSaleSeed
  split
  · exact h
  · simp only [hasSaleId] at h ⊢
    simp [List.any_append, h]

/-- All ten seed primary keys are present. -/
def seededChk (db : DB) : Bool :=
  hasMember db "M001" && hasMember db "M002" && hasMember db "M003" &&
  hasBook db "B001" && hasBook db "B002" && hasBook db "B003" &&
  hasSaleId db 1 && hasSaleId db 2 && hasSaleId db 3 && hasSaleId db 4

theorem insMember_of_has (db : DB) (m : Member) (h : hasMember db m.mid = true) :
    insMember db m = db := by
  simp [insMember, h]

theorem insBook_of_has (db : DB) (b : Book) (h : hasBook db b.bid = true) :
    insBook db b = db := by
  simp [insBook, h]

theorem insSaleSeed_of_has (db : DB) (s : Sale) (h : hasSaleId db s.sid = true) :
    insSaleSeed db s = db := by
  simp [insSaleSeed, h]

theorem initialize_db_seeded (db : DB) : seededChk (initialize_db db) = true := by
  have hm1 : hasMember (initialize_db db) "M001" = true := by
    unfold initialize_db
    simp only [hasMember_insSaleSeed, hasMember_insBook]
    exact hasMember_insMember_mono _ _ _ (hasMember_insMember_mono _ _ _
      (hasMember_insMember_self db mAlice))
  have hm2 : hasMember (initialize_db db) "M002" = true := by
    unfold initialize_db
    simp only [hasMember_insSaleSeed, hasMember_insBook]
    exact hasMember_insMember_mono _ _ _ (hasMember_insMember_self _ mBob)
  have hm3 : hasMember (initialize_db db) "M003" = true := by
    unfold initialize_db
    simp only [hasMember_insSaleSeed, hasMember_insBook]
    exact hasMember_insMember_self _ mCathy
  have hb1 : hasBook (initialize_db db) "B001" = true := by
    unfold initialize_db
    simp only [hasBook_insSaleSeed]
    exact hasBook_insBook_mono _ _ _ (hasBook_insBook_mono _ _ _
      (hasBook_insBook_self _ bPython))
  have hb2 : hasBook (initialize_db db) "B002" = true := by
    unfold initialize_db
    simp only [hasBook_insSaleSeed]
    exact hasBook_insBook_mono _ _ _ (hasBook_insBook_self _ bData)
  have hb3 : hasBook (initialize_db db) "B003" = true := by
    unfold initialize_db
    simp only [hasBook_insSaleSeed]
    exact hasBook_insBook_self _ bML
  have hs1 : hasSaleId (initialize_db db) 1 = true := by
    unfold initialize_db
    exact hasSaleId_insSaleSeed_mono _ _ _ (hasSaleId_insSaleSeed_mono _ _ _
      (hasSaleId_insSaleSeed_mono _ _ _ (hasSaleId_insSaleSeed_self _ sSeed1)))
  have hs2 : hasSaleId (initialize_db db) 2 = true := by
    unfold initialize_db
    exact hasSaleId_insSaleSeed_mono _ _ _ (hasSaleId_insSaleSeed_mono _ _ _
      (hasSaleId_insSaleSeed_self _ sSeed2))
  have hs3 : hasSaleId (initialize_db db) 3 = true := by
    unfold initialize_db
    exact hasSaleId_insSaleSeed_mono _ _ _ (hasSaleId_insSaleSeed_self _ sSeed3)
  have hs4 : hasSaleId (initialize_db db) 4 = true := by
    unfold initialize_db
    exact hasSaleId_insSaleSeed_self _ sSeed4
  simp [seededChk, hm1, hm2, hm3, hb1, hb2, hb3, hs1, hs2, hs3, hs4]

theorem initialize_db_of_seeded (db : DB) (h : seededChk db = true) :
    initialize_db db = db := by
  unfold seededChk at h
  simp only [Bool.and_eq_true] at h
  obtain ⟨⟨⟨⟨⟨⟨⟨⟨⟨h1, h2⟩, h3⟩, h4⟩, h5⟩, h6⟩, h7⟩, h8⟩, h9⟩, h10⟩ := h
  unfold initialize_db
  rw [insMember_of_has db mAlice h1, insMember_of_has db mBob h2,
      insMember_of_has db mCathy h3, insBook_of_has db bPython h4,
      insBook_of_has db bData h5, insBook_of_has db bML h6,
      insSaleSeed_of_has db sSeed1 h7, insSaleSeed_of_has db sSeed2 h8,
      insSaleSeed_of_has db sSeed3 h9, insSaleSeed_of_has db sSeed4 h10]

theorem mem_members_insMember (db : DB) (m x : Member) (h : x ∈ db.members) :
    x ∈ (insMember db m).members := by
  unfold insMember
  split
  · exact h
  · simp only [List.mem_append]
    exact Or.inl h

theorem mem_books_insBook (db : DB) (b x : Book) (h : x ∈ db.books) :
    x ∈ (insBook db b).books := by
  unfold insBook
  split
  · exact h
  · simp only [List.mem_append]
    exact Or.inl h

theorem mem_sales_insSaleSeed (db : DB) (s x : Sale) (h : x ∈ db.sales) :
    x ∈ (insSaleSeed db s).sales := by
  unfold insSaleSeed
  split
  · exact h
  · simp only [List.mem_append]
    exact Or.inl h

theorem mem_members_initialize_db (db : DB) (x : Member) (h : x ∈ db.members) :
    x ∈ (initialize_db db).members := by
  unfold initialize_db
  simp only [insSaleSeed_members, insBook_members]
  exact mem_members_insMember _ _ _ (mem_members_insMember _ _ _
    (mem_members_insMember _ _ _ h))

theorem mem_books_initialize_db (db : DB) (x : Book) (h : x ∈ db.books) :
    x ∈ (initialize_db db).books := by
  unfold initialize_db
  simp only [insSaleSeed_books]
  exact mem_books_insBook _ _ _ (mem_books_insBook _ _ _
    (mem_books_insBook _ _ _ (by simpa using h)))

theorem mem_sales_initialize_db (db : DB) (x : Sale) (h : x ∈ db.sales) :
    x ∈ (initialize_db db).sales := by
  unfold initialize_db
  exact mem_sales_insSaleSeed _ _ _ (mem_sales_insSaleSeed _ _ _
    (mem_sales_insSaleSeed _ _ _ (mem_sales_insSaleSeed _ _ _ (by simpa using h))))

/-! ## Helper lemmas: the book-stock update of `add_sale` -/

theorem find?_books_decStock (l : List Book) (bid : String) (q : Int) (bk : Book)
    (h : l.find? (fun b => b.bid == bid) = some bk) :
    (l.map fun b => if b.bid == bid then { b with bstock := b.bstock - q } else b).find?
      (fun b => b.bid == bid) = some { bk with bstock := bk.bstock - q } := by
  induction l with
  | nil => simp at h
  | cons x xs ih =>
    simp only [List.map_cons]
    cases hx : x.bid == bid with
    | true =>
      simp only [List.find?_cons, hx] at h
      have hxbk : x = bk := Option.some.inj h
      subst hxbk
      simp [List.find?_cons, hx]
    | false =>
      simp only [List.find?_cons, hx] at h
      simp only [hx, Bool.false_eq_true, if_false, List.find?_cons]
      exact ih h

theorem mem_books_decStock (l : List Book) (bid : String) (q : Int) (b : Book)
    (hb : b ∈ l) (hne : (b.bid == bid) = false) :
    b ∈ l.map fun x => if x.bid == bid then { x with bstock := x.bstock - q } else x := by
  refine List.mem_map.mpr ⟨b, hb, ?_⟩
  rw [if_neg]
  simp [hne]

theorem find?_unique_bid (l : List Book) (bid : String) (bk : Book)
    (hnd : (l.map fun b => b.bid).Nodup)
    (hf : l.find? (fun b => b.bid == bid) = some bk) :
    ∀ b ∈ l, b.bid = bid → b = bk := by
  induction l with
  | nil => simp at hf
  | cons x xs ih =>
    simp only [List.map_cons, List.nodup_cons] at hnd
    obtain ⟨hxn, hnd'⟩ := hnd
    intro b hb hbid
    cases hx : x.bid == bid with
    | true =>
      simp only [List.find?_cons, hx] at hf
      have hxbk : x = bk := Option.some.inj hf
      rcases List.mem_cons.mp hb with rfl | hb2
      · exact hxbk
      · exfalso
        apply hxn
        have hxbid : x.bid = bid := by simpa using hx
        rw [hxbid, ← hbid]
        exact List.mem_map_of_mem _ hb2
    | false =>
      simp only [List.find?_cons, hx] at hf
      rcases List.mem_cons.mp hb with rfl | hb2
      · simp [hbid] at hx
      · exact ih hnd' hf b hb2 hbid

theorem nodup_bids_decStock (l : List Book) (bid : String) (q : Int)
    (hnd : (l.map fun b => b.bid).Nodup) :
    ((l.map fun b => if b.bid == bid then { b with bstock := b.bstock - q } else b).map
      fun b => b.bid).Nodup := by
  rw [List.map_map]
  have heq : ((fun b : Book => b.bid) ∘
      fun b => if b.bid == bid then { b with bstock := b.bstock - q } else b) =
      fun b : Book => b.bid := by
    funext b
    simp only [Function.comp]
    split <;> rfl
  rw [heq]
  exact hnd

/-! ## Helper lemmas: the sale update of `update_sale` -/

theorem find?_sales_setDisc (l : List Sale) (sid : Nat) (disc tot : Int) (s : Sale)
    (h : l.find? (fun t => t.sid == sid) = some s) :
    (l.map fun t => if t.sid == sid then { t with sdiscount := disc, stotal := tot } else t).find?
      (fun t => t.sid == sid) = some { s with sdiscount := disc, stotal := tot } := by
  induction l with
  | nil => simp at h
  | cons x xs ih =>
    simp only [List.map_cons]
    cases hx : x.sid == sid with
    | true =>
      simp only [List.find?_cons, hx] at h
      have hxs : x = s := Option.some.inj h
      subst hxs
      simp [List.find?_cons, hx]
    | false =>
      simp only [List.find?_cons, hx] at h
      simp only [hx, Bool.false_eq_true, if_false, List.find?_cons]
      exact ih h

theorem mem_sales_setDisc (l : List Sale) (sid : Nat) (disc tot : Int) (t : Sale)
    (ht : t ∈ l) (hne : (t.sid == sid) = false) :
    t ∈ l.map fun x => if x.sid == sid then { x with sdiscount := disc, stotal := tot } else x := by
  refine List.mem_map.mpr ⟨t, ht, ?_⟩
  rw [if_neg]
  simp [hne]

/-! ## Helper lemmas: the sale deletion of `delete_sale` -/

theorem length_filter_delSale (l : List Sale) (sid : Nat) (s : Sale)
    (hnd : (l.map fun t => t.sid).Nodup) (hs : s ∈ l) (hsid : s.sid = sid) :
    (l.filter fun t => !(t.sid == sid)).length + 1 = l.length := by
  induction l with
  | nil => cases hs
  | cons x xs ih =>
    simp only [List.map_cons, List.nodup_cons] at hnd
    obtain ⟨hxn, hnd'⟩ := hnd
    by_cases hx : x.sid = sid
    · have hall : ∀ t ∈ xs, (!(t.sid == sid)) = true := by
        intro t htxs
        have hne : t.sid ≠ sid := by
          intro hts
          exact hxn (by rw [hx, ← hts]; exact List.mem_map_of_mem _ htxs)
        simp [hne]
      rw [List.filter_cons]
      have hxf : (!(x.sid == sid)) = false := by simp [hx]
      rw [hxf]
      simp only [Bool.false_eq_true, if_false]
      rw [List.filter_eq_self.mpr hall]
      simp
    · have hs' : s ∈ xs := by
        rcases List.mem_cons.mp hs with rfl | h2
        · exact absurd hsid hx
        · exact h2
      rw [List.filter_cons]
      have hxt : (!(x.sid == sid)) = true := by simp [hx]
      rw [hxt]
      simp only [if_true]
      rw [List.length_cons, ih hnd' hs']
      rfl

/-! ## Helper lemmas: sorting and the report -/

theorem mem_insertRow (r a : Row) (l : List Row) (h : a ∈ insertRow r l) : a = r ∨ a ∈ l := by
  induction l with
  | nil =>
    simp only [insertRow, List.mem_singleton] at h
    exact Or.inl h
  | cons x xs ih =>
    unfold insertRow at h
    by_cases hc : r.sid ≤ x.sid
    · rw [if_pos hc] at h
      rcases List.mem_cons.mp h with rfl | h2
      · exact Or.inl rfl
      · exact Or.inr h2
    · rw [if_neg hc] at h
      rcases List.mem_cons.mp h with rfl | h2
      · exact Or.inr (List.mem_cons_self _ _)
      · rcases ih h2 with h3 | h3
        · exact Or.inl h3
        · exact Or.inr (List.mem_cons_of_mem _ h3)

theorem pairwise_insertRow (r : Row) (l : List Row)
    (h : l.Pairwise fun a b => a.sid ≤ b.sid) :
    (insertRow r l).Pairwise fun a b => a.sid ≤ b.sid := by
  induction l with
  | nil => simp [insertRow]
  | cons x xs ih =>
    rw [List.pairwise_cons] at h
    obtain ⟨hx, hxs⟩ := h
    unfold insertRow
    by_cases hc : r.sid ≤ x.sid
    · rw [if_pos hc, List.pairwise_cons]
      refine ⟨?_, ?_⟩
      · intro b hb
        rcases List.mem_cons.mp hb with rfl | hb2
        · exact hc
        · exact le_trans hc (hx b hb2)
      · rw [List.pairwise_cons]
        exact ⟨hx, hxs⟩
    · rw [if_neg hc, List.pairwise_cons]
      refine ⟨?_, ih hxs⟩
      intro b hb
      rcases mem_insertRow r b xs hb with rfl | hb2
      · omega
      · exact hx b hb2

theorem pairwise_sortRows (l : List Row) :
    (sortRows l).Pairwise fun a b => a.sid ≤ b.sid := by
  induction l with
  | nil => simp [sortRows]
  | cons x xs ih => exact pairwise_insertRow x _ ih

theorem length_insertRow (r : Row) (l : List Row) :
    (insertRow r l).length = l.length + 1 := by
  induction l with
  | nil => rfl
  | cons x xs ih =>
    unfold insertRow
    by_cases hc : r.sid ≤ x.sid
    · rw [if_pos hc]
      rfl
    · rw [if_neg hc]
      simp [ih]

theorem length_sortRows (l : List Row) : (sortRows l).length = l.length := by
  induction l with
  | nil => rfl
  | cons x xs ih =>
    unfold sortRows
    rw [length_insertRow, ih]
    rfl

theorem length_filterMap_join (db : DB) (l : List Sale)
    (h : ∀ s ∈ l, (joinRow db s).isSome = true) :
    (l.filterMap (joinRow db)).length = l.length := by
  induction l with
  | nil => rfl
  | cons x xs ih =>
    obtain ⟨r, hr⟩ := Option.isSome_iff_exists.mp (h x (List.mem_cons_self _ _))
    rw [List.filterMap_cons, hr, List.length_cons, List.length_cons,
      ih fun s hs => h s (List.mem_cons_of_mem _ hs)]

/-! ## The stock invariant -/

/-- The invariant carried through every reachable state: book primary keys
are pairwise distinct and every stock count is non-negative. -/
def StockInv (db : DB) : Prop :=
  (db.books.map fun b => b.bid).Nodup ∧ ∀ b ∈ db.books, 0 ≤ b.bstock

theorem update_sale_apply_books (db : DB) (sid : Nat) (d : Int) (db' : DB)
    (h : update_sale_apply db sid d = some db') :
    db'.books = db.books ∧ db'.members = db.members := by
  unfold update_sale_apply at h
  split at h
  · cases h
  · split at h
    · cases h
    · have h2 := Option.some.inj h
      rw [← h2]
      exact ⟨rfl, rfl⟩

theorem reach_stockInv (db : DB) (h : Reach db) : StockInv db := by
  induction h with
  | seed => exact ⟨by decide, by decide⟩
  | sale db hdb sdate mid bid q d hq ih =>
    obtain ⟨ihn, ihs⟩ := ih
    cases hm : db.members.find? (fun m => m.mid == mid) with
    | none =>
      simp only [add_sale, hm]
      exact ⟨ihn, ihs⟩
    | some m =>
      cases hb : db.books.find? (fun b => b.bid == bid) with
      | none =>
        simp only [add_sale, hm, hb]
        exact ⟨ihn, ihs⟩
      | some bk =>
        by_cases hst : bk.bstock < q
        · simp only [add_sale, hm, hb, if_pos hst]
          exact ⟨ihn, ihs⟩
        · simp only [add_sale, hm, hb, if_neg hst]
          refine ⟨nodup_bids_decStock _ _ _ ihn, ?_⟩
          intro b hbmem
          rcases List.mem_map.mp hbmem with ⟨b0, hb0, rfl⟩
          by_cases hbid : (b0.bid == bid) = true
          · have hb0bk : b0 = bk :=
              find?_unique_bid db.books bid bk ihn hb b0 hb0 (by simpa using hbid)
            subst hb0bk
            rw [if_pos hbid]
            have hq' : q ≤ b0.bstock := not_lt.mp hst
            have h0 : 0 ≤ b0.bstock := ihs b0 hb0
            simp only
            omega
          · rw [if_neg hbid]
            exact ihs b0 hb0
  | upd db hdb sid d db' hdb' ih =>
    obtain ⟨ihn, ihs⟩ := ih
    obtain ⟨hbooks, _⟩ := update_sale_apply_books db sid d db' hdb'
    rw [StockInv, hbooks]
    exact ⟨ihn, ihs⟩
  | del db hdb sid ih =>
    exact ih

/-! ## Claims -/

/-- Claim C1: for every state in which `mid` names an existing member and `bid`
an existing book `bk`, with `0 < q ≤ bk.bstock` and `0 ≤ d`, `add_sale`
succeeds returning `bk.bprice * q - d` (no clamping), appends exactly one new
sale row with that total and the autoincremented id, leaves the member table
unchanged, and decrements that book's stock by exactly `q`, leaving other
books untouched. -/
theorem add_sale_valid_spec (db : DB) (sdate mid bid : String) (q d : Int) (bk : Book)
    (hm : (db.members.find? fun m => m.mid == mid).isSome = true)
    (hb : db.books.find? (fun b => b.bid == bid) = some bk)
    (hq0 : 0 < q) (hqs : q ≤ bk.bstock) (hd : 0 ≤ d) :
    (add_sale db sdate mid bid q d).1 = (true, toString (bk.bprice * q - d)) ∧
    (add_sale db sdate mid bid q d).2.sales =
      db.sales ++ [⟨db.nextSid, sdate, mid, bid, q, d, bk.bprice * q - d⟩] ∧
    (add_sale db sdate mid bid q d).2.members = db.members ∧
    ((add_sale db sdate mid bid q d).2.books.find? fun b => b.bid == bid) =
      some { bk with bstock := bk.bstock - q } ∧
    ∀ b ∈ db.books, (b.bid == bid) = false → b ∈ (add_sale db sdate mid bid q d).2.books := by
  obtain ⟨m, hm'⟩ := Option.isSome_iff_exists.mp hm
  have hlt : ¬ (bk.bstock < q) := not_lt.mpr hqs
  simp only [add_sale, hm', hb]
  rw [if_neg hlt]
  refine ⟨rfl, rfl, rfl, ?_, ?_⟩
  · exact find?_books_decStock db.books bid q bk hb
  · intro b hbm hne
    exact mem_books_decStock db.books bid q b hbm hne

/-- Witness for C1: the spec's seeded example,
`recordSale("2024-02-01","M001","B001",2,100)`: success, total 1100, stock of
B001 becomes 48. -/
theorem add_sale_valid_witness :
    (add_sale seedDB "2024-02-01" "M001" "B001" 2 100).1 = (true, "1100") ∧
    ((add_sale seedDB "2024-02-01" "M001" "B001" 2 100).2.books.find?
      fun b => b.bid == "B001") = some ⟨"B001", "Python Programming", 600, 48⟩ := by
  have h := add_sale_valid_spec seedDB "2024-02-01" "M001" "B001" 2 100
    ⟨"B001", "Python Programming", 600, 50⟩ (by decide) (by decide) (by decide)
    (by decide) (by decide)
  exact ⟨h.1, h.2.2.2.1⟩

/-- Claim C2: `add_sale` with an unknown member id, or a known member id and
an unknown book id, fails with the one invalid-reference message (the same
kind and message in both cases) and leaves the whole database unchanged. -/
theorem add_sale_invalid_ref_spec (db : DB) (sdate mid bid : String) (q d : Int)
    (h : db.members.find? (fun m => m.mid == mid) = none ∨
      ((db.members.find? fun m => m.mid == mid).isSome = true ∧
        db.books.find? (fun b => b.bid == bid) = none)) :
    add_sale db sdate mid bid q d = ((false, invalidRefMsg), db) := by
  rcases h with hm | ⟨hm, hb⟩
  · simp only [add_sale, hm]
  · obtain ⟨m, hm'⟩ := Option.isSome_iff_exists.mp hm
    simp only [add_sale, hm', hb]

/-- Witness for C2: the spec's example `recordSale("2024-02-01","M999","B001",1,0)`. -/
theorem add_sale_invalid_ref_witness :
    add_sale seedDB "2024-02-01" "M999" "B001" 1 0 = ((false, invalidRefMsg), seedDB) :=
  add_sale_invalid_ref_spec seedDB "2024-02-01" "M999" "B001" 1 0 (Or.inl (by decide))

/-- Claim C3: with an existing member and book, `add_sale` with quantity
strictly above the current stock fails with the insufficient-stock message
carrying the current stock and leaves the database unchanged; quantity
exactly equal to the stock is not rejected by this check. -/
theorem add_sale_insufficient_spec (db : DB) (sdate mid bid : String) (q d : Int) (bk : Book)
    (hm : (db.members.find? fun m => m.mid == mid).isSome = true)
    (hb : db.books.find? (fun b => b.bid == bid) = some bk) :
    (bk.bstock < q →
      add_sale db sdate mid bid q d = ((false, insufficientStockMsg bk.bstock), db)) ∧
    (q = bk.bstock → (add_sale db sdate mid bid q d).1.1 = true) := by
  obtain ⟨m, hm'⟩ := Option.isSome_iff_exists.mp hm
  constructor
  · intro hlt
    simp only [add_sale, hm', hb]
    rw [if_pos hlt]
  · intro heq
    have hlt : ¬ (bk.bstock < q) := by omega
    simp only [add_sale, hm', hb]
    rw [if_neg hlt]

/-- Witness for C3: the spec's example
`recordSale("2024-02-01","M001","B001",1000,0)` fails carrying stock 50. -/
theorem add_sale_insufficient_witness :
    add_sale seedDB "2024-02-01" "M001" "B001" 1000 0 =
      ((false, insufficientStockMsg 50), seedDB) := by
  have h := add_sale_insufficient_spec seedDB "2024-02-01" "M001" "B001" 1000 0
    ⟨"B001", "Python Programming", 600, 50⟩ (by decide) (by decide)
  exact h.1 (by decide)

/-- Claim C4: in every state reachable from the seeded database by
`add_sale` (with the caller precondition `0 < quantity`), sale updates and
sale deletions, every book's stock is non-negative. -/
theorem stock_never_negative (db : DB) (h : Reach db) :
    ∀ b ∈ db.books, 0 ≤ b.bstock :=
  (reach_stockInv db h).2

/-- Witness for C4: the seeded state is reachable and B001's stock there is
non-negative. -/
theorem stock_never_negative_witness :
    0 ≤ (Book.mk "B001" "Python Programming" 600 50).bstock :=
  stock_never_negative seedDB Reach.seed ⟨"B001", "Python Programming", 600, 50⟩ (by decide)

/-- Counterexample to C5 as stated: called directly with a negative discount
(and otherwise valid arguments), `add_sale` itself does not reject the input:
it succeeds (total `600*1-(-100) = 700`) and records a new sale row. -/
theorem add_sale_negative_discount_counterexample :
    (add_sale seedDB "2024-02-01" "M001" "B001" 1 (-100)).1 = (true, "700") ∧
    (add_sale seedDB "2024-02-01" "M001" "B001" 1 (-100)).2.sales.length =
      seedDB.sales.length + 1 := by
  decide

/-- Claim C5 (amended): the core `add_sale` performs no sign validation on
the discount: with an existing member and book and sufficient stock, a
negative discount is accepted and a sale with total
`price*quantity - discount` is persisted; the rejection of negative
discounts happens only at the CLI boundary (`cliDiscountAccepted`), before
`add_sale` is invoked. -/
theorem add_sale_negative_discount_spec (db : DB) (sdate mid bid : String) (q d : Int)
    (bk : Book)
    (hm : (db.members.find? fun m => m.mid == mid).isSome = true)
    (hb : db.books.find? (fun b => b.bid == bid) = some bk)
    (hq0 : 0 < q) (hqs : q ≤ bk.bstock) (hd : d < 0) :
    cliDiscountAccepted d = false ∧
    (add_sale db sdate mid bid q d).1 = (true, toString (bk.bprice * q - d)) ∧
    (add_sale db sdate mid bid q d).2.sales =
      db.sales ++ [⟨db.nextSid, sdate, mid, bid, q, d, bk.bprice * q - d⟩] := by
  obtain ⟨m, hm'⟩ := Option.isSome_iff_exists.mp hm
  have hlt : ¬ (bk.bstock < q) := not_lt.mpr hqs
  refine ⟨by simp [cliDiscountAccepted, hd], ?_, ?_⟩
  · simp only [add_sale, hm', hb]
    rw [if_neg hlt]
  · simp only [add_sale, hm', hb]
    rw [if_neg hlt]

/-- Witness for C5 (amended): discount -100 on the seeded database. -/
theorem add_sale_negative_discount_witness :
    cliDiscountAccepted (-100) = false ∧
    (add_sale seedDB "2024-02-01" "M001" "B001" 1 (-100)).1 = (true, "700") ∧
    (add_sale seedDB "2024-02-01" "M001" "B001" 1 (-100)).2.sales =
      seedDB.sales ++ [⟨seedDB.nextSid, "2024-02-01", "M001", "B001", 1, -100, 700⟩] := by
  have h := add_sale_negative_discount_spec seedDB "2024-02-01" "M001" "B001" 1 (-100)
    ⟨"B001", "Python Programming", 600, 50⟩ (by decide) (by decide) (by decide)
    (by decide) (by decide)
  exact ⟨h.1, h.2.1, h.2.2⟩

/-- Claim C6: updating the discount of the sale with identifier `sid` (whose
row is `s` and whose book is `bk`) to `disc ≥ 0` succeeds, sets that sale's
discount to `disc` and its total to `bk.bprice * s.sqty - disc`, and leaves
the member table, the book table (stock included), the number of sales and
every other sale row unchanged. -/
theorem update_sale_discount_spec (db : DB) (sid : Nat) (disc : Int) (s : Sale) (bk : Book)
    (hs : db.sales.find? (fun t => t.sid == sid) = some s)
    (hb : db.books.find? (fun b => b.bid == s.bid) = some bk)
    (hd : 0 ≤ disc) :
    (update_sale_apply db sid disc).isSome = true ∧
    ∀ db', update_sale_apply db sid disc = some db' →
      db'.members = db.members ∧
      db'.books = db.books ∧
      db'.sales.length = db.sales.length ∧
      (db'.sales.find? fun t => t.sid == sid) =
        some { s with sdiscount := disc, stotal := bk.bprice * s.sqty - disc } ∧
      ∀ t ∈ db.sales, (t.sid == sid) = false → t ∈ db'.sales := by
  have happ : update_sale_apply db sid disc =
      some { db with sales := db.sales.map fun t =>
        if t.sid == sid then
          { t with sdiscount := disc, stotal := bk.bprice * s.sqty - disc }
        else t } := by
    simp only [update_sale_apply, hs, hb]
  refine ⟨by rw [happ]; rfl, ?_⟩
  intro db' hdb'
  rw [happ] at hdb'
  have hinj := Option.some.inj hdb'
  rw [← hinj]
  refine ⟨rfl, rfl, by simp, ?_, ?_⟩
  · exact find?_sales_setDisc db.sales sid disc _ s hs
  · intro t ht hne
    exact mem_sales_setDisc db.sales sid disc _ t ht hne

/-- Witness for C6: setting sale 2's discount to 0 on the seeded database
stores total 800 and leaves the books untouched. -/
theorem update_sale_discount_witness :
    (update_sale_apply seedDB 2 0).isSome = true ∧
    ((update_sale_apply seedDB 2 0).getD emptyDB).books = seedDB.books ∧
    (((update_sale_apply seedDB 2 0).getD emptyDB).sales.find? fun t => t.sid == 2) =
      some ⟨2, "2024-01-16", "M002", "B002", 1, 0, 800⟩ := by
  have h := update_sale_discount_spec seedDB 2 0 sSeed2 bData (by decide) (by decide)
    (by decide)
  have h2 := h.2 ((update_sale_apply seedDB 2 0).getD emptyDB) (by decide)
  exact ⟨h.1, h2.2.1, h2.2.2.2.1⟩

/-- Claim C7: deleting the sale with identifier `sid` (under distinct sale
ids) removes exactly that one row: the sale count drops by one, the deleted
row is gone, every other sale row survives, no new sale appears, and the
member and book tables — stock included — are untouched. -/
theorem delete_sale_spec (db : DB) (sid : Nat) (s : Sale)
    (hnd : (db.sales.map fun t => t.sid).Nodup)
    (hs : s ∈ db.sales) (hsid : s.sid = sid) :
    (delete_sale_apply db sid).members = db.members ∧
    (delete_sale_apply db sid).books = db.books ∧
    (delete_sale_apply db sid).sales.length + 1 = db.sales.length ∧
    s ∉ (delete_sale_apply db sid).sales ∧
    (∀ t ∈ db.sales, (t.sid == sid) = false → t ∈ (delete_sale_apply db sid).sales) ∧
    ∀ t ∈ (delete_sale_apply db sid).sales, t ∈ db.sales := by
  refine ⟨rfl, rfl, ?_, ?_, ?_, ?_⟩
  · exact length_filter_delSale db.sales sid s hnd hs hsid
  · intro hmem
    have h2 := (List.mem_filter.mp hmem).2
    simp [hsid] at h2
  · intro t ht hne
    exact List.mem_filter.mpr ⟨ht, by simp [hne]⟩
  · intro t ht
    exact (List.mem_filter.mp ht).1

/-- Witness for C7: deleting sale 3 from the seeded database removes one row
and leaves the books (stock included) unchanged. -/
theorem delete_sale_witness :
    (delete_sale_apply seedDB 3).sales.length + 1 = seedDB.sales.length ∧
    (delete_sale_apply seedDB 3).books = seedDB.books := by
  have h := delete_sale_spec seedDB 3 sSeed3 (by decide) (by decide) (by decide)
  exact ⟨h.2.2.1, h.2.1⟩

/-- Claim C8: `initialize_db` is idempotent — running it on any state it has
produced changes nothing — and it never overwrites rows already present:
every existing member, book and sale row (mutated or not) survives a re-run
verbatim. -/
theorem initialize_db_idempotent (db : DB) :
    initialize_db (initialize_db db) = initialize_db db ∧
    (∀ m ∈ db.members, m ∈ (initialize_db db).members) ∧
    (∀ b ∈ db.books, b ∈ (initialize_db db).books) ∧
    ∀ s ∈ db.sales, s ∈ (initialize_db db).sales := by
  refine ⟨initialize_db_of_seeded _ (initialize_db_seeded db), ?_, ?_, ?_⟩
  · exact fun m hm => mem_members_initialize_db db m hm
  · exact fun b hb => mem_books_initialize_db db b hb
  · exact fun s hs => mem_sales_initialize_db db s hs

/-- Witness for C8: re-running the bootstrap on the seeded database is the
identity, and an existing row survives. -/
theorem initialize_db_idempotent_witness :
    initialize_db (initialize_db seedDB) = initialize_db seedDB ∧
    mAlice ∈ (initialize_db seedDB).members := by
  have h := initialize_db_idempotent seedDB
  exact ⟨h.1, h.2.1 mAlice (by decide)⟩

/-- Claim C9: the report is read-only (the state it passes on is its input
state); one block is produced per sale (each sale joined with its member and
book), the blocks are ordered by ascending sale identifier, and with no
sales only the no-records notice is produced. -/
theorem print_sale_report_spec (db : DB)
    (hjoin : ∀ s ∈ db.sales, (joinRow db s).isSome = true) :
    (print_sale_report db).2 = db ∧
    (reportRows db).length = db.sales.length ∧
    ((reportRows db).Pairwise fun a b => a.sid ≤ b.sid) ∧
    (db.sales = [] → (print_sale_report db).1 = noRecordsMsg) ∧
    (db.sales ≠ [] →
      (print_sale_report db).1 = reportHeader ++ renderBlocks 1 (reportRows db)) := by
  have hlen : (reportRows db).length = db.sales.length := by
    unfold reportRows
    rw [length_sortRows]
    exact length_filterMap_join db db.sales hjoin
  refine ⟨?_, hlen, pairwise_sortRows _, ?_, ?_⟩
  · unfold print_sale_report
    split <;> rfl
  · intro hnil
    have hrr : reportRows db = [] := by
      unfold reportRows
      rw [hnil]
      rfl
    simp only [print_sale_report, hrr]
  · intro hne
    have hrne : reportRows db ≠ [] := by
      intro h0
      apply hne
      apply List.length_eq_zero.mp
      rw [← hlen, h0]
      rfl
    obtain ⟨r, rs, hrr⟩ := List.exists_cons_of_ne_nil hrne
    simp only [print_sale_report, hrr]

/-- Witness for C9: on the seeded database the report is read-only and has
one block per sale. -/
theorem print_sale_report_witness :
    (print_sale_report seedDB).2 = seedDB ∧
    (reportRows seedDB).length = seedDB.sales.length := by
  have h := print_sale_report_spec seedDB (by decide)
  exact ⟨h.1, h.2.1⟩

/-- Claim C10 (implicit): with an existing member and book, a non-negative
stock and `quantity ≤ 0`, `add_sale` does not fail: it records a sale with
total `price*quantity - discount` and changes the stock by `-quantity`, so
the stock does not decrease. -/
theorem add_sale_nonpositive_qty_spec (db : DB) (sdate mid bid : String) (q d : Int)
    (bk : Book)
    (hm : (db.members.find? fun m => m.mid == mid).isSome = true)
    (hb : db.books.find? (fun b => b.bid == bid) = some bk)
    (hq : q ≤ 0) (hst : 0 ≤ bk.bstock) :
    (add_sale db sdate mid bid q d).1.1 = true ∧
    (add_sale db sdate mid bid q d).2.sales =
      db.sales ++ [⟨db.nextSid, sdate, mid, bid, q, d, bk.bprice * q - d⟩] ∧
    ((add_sale db sdate mid bid q d).2.books.find? fun b => b.bid == bid) =
      some { bk with bstock := bk.bstock - q } ∧
    bk.bstock ≤ bk.bstock - q := by
  obtain ⟨m, hm'⟩ := Option.isSome_iff_exists.mp hm
  have hlt : ¬ (bk.bstock < q) := by omega
  simp only [add_sale, hm', hb]
  rw [if_neg hlt]
  exact ⟨rfl, rfl, find?_books_decStock db.books bid q bk hb, by omega⟩

/-- Witness for C10: quantity -2 on book B002 raises its stock from 30 to 32
while the call succeeds. -/
theorem add_sale_nonpositive_qty_witness :
    (add_sale seedDB "2024-03-01" "M002" "B002" (-2) 0).1.1 = true ∧
    ((add_sale seedDB "2024-03-01" "M002" "B002" (-2) 0).2.books.find?
      fun b => b.bid == "B002") = some ⟨"B002", "Data Science Basics", 800, 32⟩ := by
  have h := add_sale_nonpositive_qty_spec seedDB "2024-03-01" "M002" "B002" (-2) 0
    ⟨"B002", "Data Science Basics", 800, 30⟩ (by decide) (by decide) (by decide) (by decide)
  exact ⟨h.1, h.2.2.1⟩

end Bookstore
